import Mathlib

set_option maxRecDepth 8192

/-!
Verification development for the MCP-Tx reliability middleware
(`src/mcp_tx/session.py` and `src/mcp_tx/types.py`; the `rmcp` variant is the
same code modulo renaming).  The Python source is shallowly embedded: machine
integers are `Int`/`Nat`, wall-clock instants are explicit `Int` millisecond
timestamps passed as a `now` parameter, Python dicts are insertion-ordered
association lists, floats are modelled as rationals, and the underlying
asynchronous session is modelled as a per-attempt outcome oracle.
-/

namespace MCPTx

/-! ## Python string primitives used by the session code -/

/-- The whitespace characters recognised by the embedding, i.e. the ASCII
subset of the characters Python's `str.strip` and the regex class `\s`
treat as whitespace.  (The code never manipulates non-ASCII whitespace.) -/
def pyIsSpaceChar (c : Char) : Bool :=
  c = ' ' || c = '\t' || c = '\n' || c = '\r' || c = '\x0b' || c = '\x0c'

/-- Python `str.strip()`: remove leading and trailing whitespace. -/
def pyStrip (s : String) : String :=
  ⟨((s.toList.dropWhile pyIsSpaceChar).reverse.dropWhile pyIsSpaceChar).reverse⟩

/-- Python `str.replace(a, b)` for single-character `a`, `b`. -/
def pyReplaceChar (s : String) (a b : Char) : String :=
  ⟨s.toList.map (fun c => if c = a then b else c)⟩

/-- Model of Python `str.isalnum` on a single character, restricted to the
subset of Unicode the development exercises: ASCII alphanumerics, the Latin-1
supplement letters and numeric signs, Japanese kana, and the CJK Unified
Ideographs block.  Characters outside this subset are conservatively
classified as non-alphanumeric. -/
def pyIsAlnumChar (c : Char) : Bool :=
  c.isAlphanum ||
  c.toNat = 0xAA || c.toNat = 0xB5 || c.toNat = 0xBA ||
  c.toNat = 0xB2 || c.toNat = 0xB3 || c.toNat = 0xB9 ||
  (0xBC ≤ c.toNat && c.toNat ≤ 0xBE) ||
  (0xC0 ≤ c.toNat && c.toNat ≤ 0xFF && c.toNat ≠ 0xD7 && c.toNat ≠ 0xF7) ||
  (0x3040 ≤ c.toNat && c.toNat ≤ 0x30FF) ||
  (0x4E00 ≤ c.toNat && c.toNat ≤ 0x9FFF)

/-- Python `str.isalnum()`: non-empty and every character alphanumeric. -/
def pyStrIsAlnum (s : String) : Bool :=
  !s.isEmpty && s.toList.all pyIsAlnumChar

/-- Python `str.upper()` (the retryable-error tokens compared against are all
ASCII, so ASCII upcasing is exact here). -/
def pyUpper (s : String) : String :=
  ⟨s.toList.map Char.toUpper⟩

/-- Contiguous-prefix test on character lists. -/
def startsWithChars : List Char → List Char → Bool
  | [], _ => true
  | _ :: _, [] => false
  | a :: as, b :: bs => a = b && startsWithChars as bs

/-- Python's `needle in haystack` substring test. -/
def containsSub (needle : List Char) : List Char → Bool
  | [] => needle.isEmpty
  | b :: bs => startsWithChars needle (b :: bs) || containsSub needle bs

/-! ## Error sanitizer (`_sanitize_error_message`)

The sanitizer applies, in order, the eight regular expressions

  `password[=:]\s*\S+`, `token[=:]\s*\S+`, `key[=:]\s*\S+`,
  `secret[=:]\s*\S+`, `auth[=:]\s*\S+`,
  `/Users/[^/\s]+`, `/home/[^/\s]+`, `file://[^\s]+`

each with `re.IGNORECASE`, replacing every non-overlapping leftmost match by
`[REDACTED]`, and then truncates the result to at most 200 characters.  Each
pattern is a literal (matched case-insensitively) followed by greedy character
classes, and `\s` / `\S` are disjoint, so matching needs no backtracking:
a match is the literal, then a maximal whitespace run, then a non-empty
maximal run from the final class. -/

/-- Case-insensitive prefix test (ASCII case folding, as the pattern
literals are ASCII). -/
def ciPrefixChars : List Char → List Char → Bool
  | [], _ => true
  | _ :: _, [] => false
  | a :: as, b :: bs => a.toLower = b.toLower && ciPrefixChars as bs

/-- Match `word[=:]\s*\S+` at the head of `l`; returns the match length. -/
def matchKVAt (word : List Char) (l : List Char) : Option Nat :=
  if ciPrefixChars word l then
    match l.drop word.length with
    | [] => none
    | c :: rest =>
      if c = '=' || c = ':' then
        let ws := (rest.takeWhile pyIsSpaceChar).length
        let nw := ((rest.drop ws).takeWhile (fun d => !pyIsSpaceChar d)).length
        if nw = 0 then none else some (word.length + 1 + ws + nw)
      else none
  else none

/-- Match a case-insensitive literal followed by a non-empty greedy run of
characters satisfying `cls`, at the head of `l`; returns the match length. -/
def matchLitRunAt (lit : List Char) (cls : Char → Bool) (l : List Char) : Option Nat :=
  if ciPrefixChars lit l then
    let run := ((l.drop lit.length).takeWhile cls).length
    if run = 0 then none else some (lit.length + run)
  else none

/-- The eight sensitive patterns, in the order the source applies them. -/
def sensitivePatterns : List (List Char → Option Nat) :=
  [ matchKVAt "password".toList
  , matchKVAt "token".toList
  , matchKVAt "key".toList
  , matchKVAt "secret".toList
  , matchKVAt "auth".toList
  , matchLitRunAt "/Users/".toList (fun c => !(c = '/') && !pyIsSpaceChar c)
  , matchLitRunAt "/home/".toList (fun c => !(c = '/') && !pyIsSpaceChar c)
  , matchLitRunAt "file://".toList (fun c => !pyIsSpaceChar c) ]

/-- Recursion core of `re.sub`, structural on a fuel argument so that it
computes by kernel reduction.  The fuel is always at least the length of the
list, so the fuel-exhausted branch is unreachable. -/
def reSubGo (m : List Char → Option Nat) (repl : List Char) :
    Nat → List Char → List Char
  | 0, l => l
  | _ + 1, [] => []
  | fuel + 1, c :: rest =>
    match m (c :: rest) with
    | some (n + 1) => repl ++ reSubGo m repl fuel (rest.drop n)
    | _ => c :: reSubGo m repl fuel rest

/-- `re.sub(pattern, repl, s)`: scan left to right, replacing each
non-overlapping leftmost match.  (The sensitive patterns can never match the
empty string; a defensive `some 0` is treated as no match.) -/
def reSub (m : List Char → Option Nat) (repl : List Char) (l : List Char) : List Char :=
  reSubGo m repl l.length l

/-- The redaction passes: one `re.sub` per sensitive pattern, in order. -/
def redactAll (l : List Char) : List Char :=
  sensitivePatterns.foldl (fun acc m => reSub m "[REDACTED]".toList acc) l

/-- The length limit: `error_str[:197] + "..."` when over 200 characters. -/
def truncate200 (l : List Char) : List Char :=
  if 200 < l.length then l.take 197 ++ "...".toList else l

/-- `MCPTxSession._sanitize_error_message`, applied to `str(error)`. -/
def sanitizeErrorMessage (msg : String) : String :=
  ⟨truncate200 (redactAll msg.toList)⟩

/-! ## Insertion-ordered dictionaries

Python 3.7+ `dict`s iterate in insertion order; assigning to an existing key
keeps its position, assigning a fresh key appends, and `del` removes the
binding.  The session's `_active_requests` and `_deduplication_cache` dicts
are embedded as association lists with these operations. -/

/-- A Python dict with string keys, as an insertion-ordered association
list. -/
abbrev Dict (β : Type) := List (String × β)

/-- `k in d`. -/
def dictContains : Dict β → String → Bool
  | [], _ => false
  | p :: d, k => p.1 = k || dictContains d k

/-- `d[k]`, as an `Option`. -/
def dictFind : Dict β → String → Option β
  | [], _ => none
  | p :: d, k => if p.1 = k then some p.2 else dictFind d k

/-- `d[k] = v`: replace in place if the key is present, append otherwise. -/
def dictInsert (d : Dict β) (k : String) (v : β) : Dict β :=
  if dictContains d k then d.map (fun p => if p.1 = k then (k, v) else p)
  else d ++ [(k, v)]

/-- `del d[k]` (also used for `d.pop(k, None)`). -/
def dictErase (d : Dict β) (k : String) : Dict β :=
  d.filter (fun p => !(p.1 = k))

/-- Delete a list of keys in turn. -/
def delKeys (d : Dict β) (ks : List String) : Dict β :=
  ks.foldl dictErase d

/-- Keys in iteration order. -/
def dictKeys (d : Dict β) : List String :=
  d.map Prod.fst

/-- Well-formedness of a dict: no duplicate keys.  Every dict reachable from
an empty dict through the operations above satisfies it. -/
def DictNodup (d : Dict β) : Prop :=
  (dictKeys d).Nodup

/-! ## Core value types (`types.py`) -/

/-- `MessageStatus`. -/
inductive MessageStatus where
  | pending
  | sent
  | acknowledged
  | failed
  | timedOut
deriving DecidableEq, Repr

/-- `MCPTxMeta`: request metadata attached to outbound calls.  The ISO-8601
`timestamp` string is abstracted away (no claim concerns it). -/
structure MCPTxMeta where
  version : String
  request_id : String
  transaction_id : Option String
  idempotency_key : Option String
  expect_ack : Bool
  retry_count : Nat
  timeout_ms : Int
deriving DecidableEq, Repr

/-- `MCPTxResponse`: response metadata returned to callers. -/
structure MCPTxResponse where
  ack : Bool
  processed : Bool
  duplicate : Bool
  attempts : Nat
  final_status : String
  error_code : Option String
  error_message : Option String
deriving DecidableEq, Repr

/-- `MCPTxResult`: the tool result (`None` on failure) plus metadata.  The
opaque tool-response payload has type `α`. -/
structure MCPTxResult (α : Type) where
  result : Option α
  mcp_tx_meta : MCPTxResponse
deriving DecidableEq, Repr

/-- `RetryPolicy`.  `backoff_multiplier` is a Python float, modelled as a
rational. -/
structure RetryPolicy where
  max_attempts : Nat
  base_delay_ms : Int
  max_delay_ms : Int
  backoff_multiplier : ℚ
  jitter : Bool
  retryable_errors : List String
deriving DecidableEq, Repr

/-- `MCPTxConfig` (the fields the session reads). -/
structure MCPTxConfig where
  retry_policy : RetryPolicy
  default_timeout_ms : Int
  max_concurrent_requests : Nat
  deduplication_window_ms : Int
deriving DecidableEq, Repr

/-- A Python exception as seen by the retry loop: its `str()` message, and
its `error_code` / `retryable` attributes.  Both attributes are present
exactly on the `MCPTxError` taxonomy (`getattr` falls back otherwise), so
they are `Option`s that are `some` together for taxonomy errors and `none`
for foreign exceptions. -/
structure PyError where
  message : String
  error_code : Option String
  retryable : Option Bool
deriving DecidableEq, Repr

/-- `RequestTracker` (the wall-clock `created_at`/`updated_at` fields are
abstracted to the single instant `now` at which the embedded call runs). -/
structure RequestTracker where
  request_id : String
  transaction_id : Option String
  status : MessageStatus
  attempts : Nat
  last_error : Option String
deriving DecidableEq, Repr

/-- The session state manipulated by a call: the peer-support flag, the
active-request map and the deduplication cache.  A dedup entry is
`(result, timestamp)` with the timestamp in epoch milliseconds. -/
structure SessionState (α : Type) where
  mcp_tx_enabled : Bool
  active_requests : Dict RequestTracker
  deduplication_cache : Dict (MCPTxResult α × Int)
deriving DecidableEq, Repr

/-! ## Deduplication cache (`_get_cached_result`, `_cache_result`)

`datetime.utcnow()` is the parameter `now`; `timedelta(milliseconds=w)`
subtraction becomes integer subtraction, so `cutoff_time = now - window`. -/

/-- `_get_cached_result`: on a hit inside the window, return a copy of the
cached result whose response metadata is rebuilt field by field with
`duplicate := true`; on an expired hit, delete the entry and return nothing.
The (possibly updated) cache is returned alongside. -/
def getCachedResult (cache : Dict (MCPTxResult α × Int)) (key : String)
    (now window : Int) : Option (MCPTxResult α) × Dict (MCPTxResult α × Int) :=
  match dictFind cache key with
  | some (cached, t) =>
    if now - window ≤ t then
      (some { result := cached.result
              mcp_tx_meta :=
                { ack := cached.mcp_tx_meta.ack
                  processed := cached.mcp_tx_meta.processed
                  duplicate := true
                  attempts := cached.mcp_tx_meta.attempts
                  final_status := cached.mcp_tx_meta.final_status
                  error_code := cached.mcp_tx_meta.error_code
                  error_message := cached.mcp_tx_meta.error_message } },
       cache)
    else
      (none, dictErase cache key)
  | none => (none, cache)

/-- First statement of `_cache_result`: `cache[key] = (result, now)`. -/
def cacheInsertPhase (cache : Dict (MCPTxResult α × Int)) (key : String)
    (res : MCPTxResult α) (now : Int) : Dict (MCPTxResult α × Int) :=
  dictInsert cache key (res, now)

/-- Second phase of `_cache_result`: collect the keys of entries whose
timestamp is strictly before `now - window` and delete each. -/
def cacheExpiryPhase (cache : Dict (MCPTxResult α × Int))
    (now window : Int) : Dict (MCPTxResult α × Int) :=
  delKeys cache ((cache.filter (fun p => p.2.2 < now - window)).map Prod.fst)

/-- The sort key of the overflow trim: compare entries by their stored
timestamp (`key=lambda x: x[1][1]`). -/
def tsLe (x y : String × (MCPTxResult α × Int)) : Bool :=
  x.2.2 ≤ y.2.2

/-- Third phase of `_cache_result`: if more than 1000 entries remain, sort
the entries by timestamp (Python's stable `sorted`) and delete the keys of
the first 100. -/
def cacheTrimPhase (cache : Dict (MCPTxResult α × Int)) : Dict (MCPTxResult α × Int) :=
  if 1000 < cache.length then
    delKeys cache (((cache.mergeSort tsLe).take 100).map Prod.fst)
  else cache

/-- `_cache_result`: insert, evict expired entries, then trim on overflow. -/
def cacheResult (cache : Dict (MCPTxResult α × Int)) (key : String)
    (res : MCPTxResult α) (now window : Int) : Dict (MCPTxResult α × Int) :=
  cacheTrimPhase (cacheExpiryPhase (cacheInsertPhase cache key res now) now window)

/-! ## Retry engine (`_should_retry`, `_calculate_retry_delay`) -/

/-- `_should_retry`: honor the `retryable` flag of taxonomy errors; for
foreign exceptions, check whether the upper-cased message contains one of the
policy's retryable-error tokens. -/
def shouldRetry (e : PyError) (p : RetryPolicy) : Bool :=
  match e.retryable with
  | some b => b
  | none =>
    p.retryable_errors.any (fun tok => containsSub tok.toList (pyUpper e.message).toList)

/-- Python `int(q)`: truncation toward zero. -/
def pytrunc (q : ℚ) : Int :=
  if 0 ≤ q then ⌊q⌋ else -⌊-q⌋

/-- `_calculate_retry_delay`.  `rand` models the `random.random()` draw in
`[0, 1)`; it is unused when `jitter` is off.  The jittered intermediate is
truncated by `int(...)` exactly as in the source, and the final clamp
`int(max(delay, base_delay_ms))` is the returned value. -/
def calculateRetryDelay (attempt : Nat) (p : RetryPolicy) (rand : ℚ) : Int :=
  let delay0 : ℚ := min ((p.base_delay_ms : ℚ) * p.backoff_multiplier ^ attempt) (p.max_delay_ms : ℚ)
  let delay1 : ℚ :=
    if p.jitter then (pytrunc (delay0 + delay0 * (1/5) * (rand * 2 - 1)) : ℚ) else delay0
  pytrunc (max delay1 (p.base_delay_ms : ℚ))

/-! ## The attempt loop and call pipeline (`call_tool`, `_call_tool_with_retry`)

The underlying session is modelled by an oracle giving each zero-indexed
attempt's outcome: the awaited `_execute_tool_call` either returns a response,
raises an `Exception` (caught by the loop), or is cancelled by the caller —
cancellation is a `BaseException` in Python, which the loop's
`except Exception` does *not* catch, so it escapes the attempt loop and only
the `finally` block runs. -/

/-- Outcome of one attempt's awaited call. -/
inductive AttemptOutcome (α : Type) where
  | success (response : α)
  | failure (e : PyError)
  | cancelled
deriving DecidableEq, Repr

/-- How the attempt loop exits: a successful attempt (with its zero-based
index), exhaustion (with the number of attempts executed and the last error),
or an escaping cancellation (after `executed` attempts were started). -/
inductive LoopExit (α : Type) where
  | success (attemptIdx : Nat) (response : α)
  | exhausted (executed : Nat) (lastErr : Option PyError)
  | cancelled (executed : Nat)
deriving DecidableEq, Repr

/-- One step of `for attempt in range(max_attempts)` with the retry/break
logic of the source: a failing attempt retries only when more attempts remain
(`attempt < max_attempts - 1`, i.e. `fuel ≠ 1` here) and `_should_retry`
holds; otherwise the loop breaks (or falls off the end). -/
def runLoopGo (outcomes : Nat → AttemptOutcome α) (p : RetryPolicy) :
    Nat → Nat → Option PyError → LoopExit α
  | a, 0, le => .exhausted a le
  | a, fuel + 1, _ =>
    match outcomes a with
    | .success v => .success a v
    | .cancelled => .cancelled (a + 1)
    | .failure e =>
      if fuel = 0 then .exhausted (a + 1) (some e)
      else if shouldRetry e p then runLoopGo outcomes p (a + 1) fuel (some e)
      else .exhausted (a + 1) (some e)

/-- The whole attempt loop, starting at attempt 0 with `last_error = None`. -/
def runLoop (outcomes : Nat → AttemptOutcome α) (p : RetryPolicy) : LoopExit α :=
  runLoopGo outcomes p 0 p.max_attempts none

/-- An outbound `tools/call` request as handed to
`mcp_session.send_request`; `meta` is present iff the session negotiated the
extension (`_execute_tool_call` vs `_execute_standard_mcp_call`).  Argument
values are monomorphised to strings (they are opaque to the session). -/
structure ToolRequest where
  method : String
  name : String
  arguments : List (String × String)
  meta : Option MCPTxMeta
deriving DecidableEq, Repr

/-- The requests sent by the first `n` attempts; attempt `i` carries
`retry_count = i` in its metadata when the extension is on. -/
def sendsFor (enabled : Bool) (request_id : String) (transaction_id : Option String)
    (idempotency_key : Option String) (timeout_ms : Int)
    (name : String) (arguments : Option (List (String × String))) (n : Nat) :
    List ToolRequest :=
  (List.range n).map (fun i =>
    { method := "tools/call"
      name := name
      arguments := arguments.getD []
      meta :=
        if enabled then
          some { version := "0.1.0"
                 request_id := request_id
                 transaction_id := transaction_id
                 idempotency_key := idempotency_key
                 expect_ack := true
                 retry_count := i
                 timeout_ms := timeout_ms }
        else none })

/-- How an embedded call returns to its caller: a raised `ValueError` from
validation, a propagating caller-cancellation, or a returned result. -/
inductive CallResult (α : Type) where
  | invalid (msg : String)
  | cancelled
  | ok (r : MCPTxResult α)
deriving DecidableEq, Repr

/-- Python truthiness of an optional string (`if idempotency_key:`). -/
def optStrTruthy (o : Option String) : Bool :=
  !(o.getD "").isEmpty

/-- The idempotency-key validation test of `call_tool`:
`idempotency_key is not None and (not idempotency_key or not
idempotency_key.strip())`. -/
def invalidKeyArg : Option String → Bool
  | some k => decide (k = "") || decide (pyStrip k = "")
  | none => false

/-- The timeout validation test of `call_tool`:
`timeout_ms is not None and (timeout_ms <= 0 or timeout_ms > 600000)`. -/
def invalidTimeoutArg : Option Int → Bool
  | some t => decide (t ≤ 0) || decide (600000 < t)
  | none => false

/-- `_call_tool_with_retry`.  Registers a lifecycle tracker under the fresh
`request_id`, runs the attempt loop, caches a *successful* result when an
idempotency key was supplied, and — in the `finally` — pops the tracker on
every exit path.  Returns the call result, the final session state, and the
list of requests sent to the underlying session. -/
def callToolWithRetry (st : SessionState α) (now window : Int)
    (request_id : String) (transaction_id : Option String)
    (name : String) (arguments : Option (List (String × String)))
    (idempotency_key : Option String) (timeout_ms : Int)
    (retry_policy : RetryPolicy) (outcomes : Nat → AttemptOutcome α) :
    CallResult α × SessionState α × List ToolRequest :=
  let tracker : RequestTracker :=
    { request_id := request_id
      transaction_id := transaction_id
      status := .pending
      attempts := 0
      last_error := none }
  let active1 := dictInsert st.active_requests request_id tracker
  match runLoop outcomes retry_policy with
  | .success a v =>
    let res : MCPTxResult α :=
      { result := some v
        mcp_tx_meta :=
          { ack := true, processed := true, duplicate := false
            attempts := a + 1, final_status := "completed"
            error_code := none, error_message := none } }
    let cache' :=
      if optStrTruthy idempotency_key then
        cacheResult st.deduplication_cache (idempotency_key.getD "") res now window
      else st.deduplication_cache
    (.ok res,
     { mcp_tx_enabled := st.mcp_tx_enabled
       active_requests := dictErase active1 request_id
       deduplication_cache := cache' },
     sendsFor st.mcp_tx_enabled request_id transaction_id idempotency_key timeout_ms
       name arguments (a + 1))
  | .cancelled ex =>
    (.cancelled,
     { mcp_tx_enabled := st.mcp_tx_enabled
       active_requests := dictErase active1 request_id
       deduplication_cache := st.deduplication_cache },
     sendsFor st.mcp_tx_enabled request_id transaction_id idempotency_key timeout_ms
       name arguments ex)
  | .exhausted ex lastErr =>
    let res : MCPTxResult α :=
      { result := none
        mcp_tx_meta :=
          { ack := false, processed := false, duplicate := false
            attempts := retry_policy.max_attempts, final_status := "failed"
            error_code := some ((lastErr.bind PyError.error_code).getD "UNKNOWN_ERROR")
            error_message :=
              some (match lastErr with
                    | some e => sanitizeErrorMessage e.message
                    | none => "Unknown error") } }
    (.ok res,
     { mcp_tx_enabled := st.mcp_tx_enabled
       active_requests := dictErase active1 request_id
       deduplication_cache := st.deduplication_cache },
     sendsFor st.mcp_tx_enabled request_id transaction_id idempotency_key timeout_ms
       name arguments ex)

/-- The raw `arguments` parameter of `call_tool`: `None`, a mapping, or a
non-mapping Python object (which the `isinstance` check rejects). -/
inductive PyArgs where
  | none
  | dict (d : List (String × String))
  | nonMapping (tag : String)
deriving DecidableEq, Repr

/-- The `isinstance(arguments, dict)` rejection test. -/
def PyArgs.isNonMapping : PyArgs → Bool
  | .nonMapping _ => true
  | _ => false

/-- The mapping passed on to the attempt loop (`arguments or {}` happens
later, in `_execute_tool_call`). -/
def PyArgs.toOptionDict : PyArgs → Option (List (String × String))
  | .none => Option.none
  | .dict d => Option.some d
  | .nonMapping _ => Option.none

/-- `call_tool`: the five validation checks in source order, then the
effective policy/timeout, the dedup-cache fast path, and the gated retry
call.  On a validation failure the `ValueError` is raised before the dedup
lookup, the semaphore acquisition and the retry loop, so the state is
returned untouched and no request is sent. -/
def callTool (st : SessionState α) (cfg : MCPTxConfig) (now : Int)
    (request_id : String) (outcomes : Nat → AttemptOutcome α)
    (name : String) (arguments : PyArgs) (idempotency_key : Option String)
    (timeout_ms : Option Int) (retry_policy : Option RetryPolicy) :
    CallResult α × SessionState α × List ToolRequest :=
  if name = "" ∨ pyStrip name = "" then
    (.invalid "Tool name must be a non-empty string", st, [])
  else if !pyStrIsAlnum (pyReplaceChar (pyReplaceChar name '_' 'a') '-' 'a') then
    (.invalid "Tool name must contain only alphanumeric characters, hyphens, and underscores",
     st, [])
  else if arguments.isNonMapping then
    (.invalid "Tool arguments must be a dictionary or None", st, [])
  else if invalidKeyArg idempotency_key then
    (.invalid "Idempotency key must be a non-empty string if provided", st, [])
  else if invalidTimeoutArg timeout_ms then
    (.invalid "Timeout must be between 1ms and 600,000ms (10 minutes)", st, [])
  else
    let effective_retry_policy := retry_policy.getD cfg.retry_policy
    let effective_timeout := timeout_ms.getD cfg.default_timeout_ms
    if optStrTruthy idempotency_key then
      let lookup := getCachedResult st.deduplication_cache (idempotency_key.getD "")
        now cfg.deduplication_window_ms
      match lookup.1 with
      | some cached =>
        (.ok cached,
         { mcp_tx_enabled := st.mcp_tx_enabled
           active_requests := st.active_requests
           deduplication_cache := lookup.2 },
         [])
      | none =>
        callToolWithRetry
          { mcp_tx_enabled := st.mcp_tx_enabled
            active_requests := st.active_requests
            deduplication_cache := lookup.2 }
          now cfg.deduplication_window_ms request_id none name arguments.toOptionDict
          idempotency_key effective_timeout effective_retry_policy outcomes
    else
      callToolWithRetry st now cfg.deduplication_window_ms request_id none name
        arguments.toOptionDict idempotency_key effective_timeout
        effective_retry_policy outcomes

/-! ## Capability handshake (`initialize`)

The handshake has two parts relevant to the claims: the outbound payload
mutation (insert `mcp_tx` under `capabilities.experimental`) and the
peer-support flag update from the returned capabilities.  `initialize` never
*clears* `_mcp_tx_enabled`; it only sets it when the peer advertises
support. -/

/-- A value stored under a key of an `experimental` capabilities mapping. -/
inductive ExtValue where
  | advert (version : String) (features : List String)
  | other (tag : String)
deriving DecidableEq, Repr

/-- A capabilities object; `experimental` is `none` when the attribute is
missing or `None`. -/
structure Capabilities where
  experimental : Option (Dict ExtValue)
deriving DecidableEq, Repr

/-- The keyword arguments of `initialize`; `capabilities` is `none` when the
caller did not supply one. -/
structure InitKwargs where
  capabilities : Option Capabilities
deriving DecidableEq, Repr

/-- The object returned by the underlying session's `initialize`;
`capabilities` is `none` when the attribute is missing or falsy. -/
structure InitResult where
  capabilities : Option Capabilities
deriving DecidableEq, Repr

/-- The payload mutation: default-insert `capabilities` and `experimental`,
then assign the `mcp_tx` advertisement. -/
def initAddCapability (kwargs : InitKwargs) : InitKwargs :=
  let caps := kwargs.capabilities.getD { experimental := none }
  let exp := caps.experimental.getD []
  { capabilities :=
      some { experimental :=
               some (dictInsert exp "mcp_tx"
                 (.advert "0.1.0" ["ack", "retry", "idempotency", "transactions"])) } }

/-- The flag update performed after the underlying `initialize` returns:
`_mcp_tx_enabled` is set when the result has truthy capabilities, a truthy
(present and non-empty) `experimental` mapping, and `"mcp_tx"` among its
keys; in every other case the flag keeps its previous value. -/
def initFlagUpdate (enabled : Bool) (result : InitResult) : Bool :=
  match result.capabilities with
  | some caps =>
    match caps.experimental with
    | some exp =>
      if exp.isEmpty then enabled
      else if dictContains exp "mcp_tx" then true
      else enabled
    | none => enabled
  | none => enabled

/-- The peer-advertises-support condition of the specification: the returned
capabilities carry a non-empty `experimental` mapping containing the key
`"mcp_tx"`. -/
def peerAdvertisesMcpTx (result : InitResult) : Bool :=
  match result.capabilities with
  | some caps =>
    match caps.experimental with
    | some exp => !exp.isEmpty && dictContains exp "mcp_tx"
    | none => false
  | none => false

/-- `initialize`: the outbound payload and the new flag value. -/
def sessionInit (enabled : Bool) (kwargs : InitKwargs) (result : InitResult) :
    InitKwargs × Bool :=
  (initAddCapability kwargs, initFlagUpdate enabled result)

/-! ## Dictionary lemmas -/

theorem dictContains_iff (d : Dict β) (k : String) :
    dictContains d k = true ↔ k ∈ dictKeys d := by
  induction d with
  | nil => simp [dictContains, dictKeys]
  | cons p d ih =>
    simp only [dictContains, Bool.or_eq_true, decide_eq_true_eq, ih, dictKeys,
      List.map_cons, List.mem_cons]
    constructor
    · rintro (h | h)
      · exact Or.inl h.symm
      · exact Or.inr h
    · rintro (h | h)
      · exact Or.inl h.symm
      · exact Or.inr h

theorem dictFind_mem (d : Dict β) (k : String) (v : β)
    (h : dictFind d k = some v) : (k, v) ∈ d := by
  induction d with
  | nil => simp [dictFind] at h
  | cons p d ih =>
    rw [dictFind] at h
    by_cases hp : p.1 = k
    · rw [if_pos hp] at h
      have hv : p.2 = v := by injection h
      have hkv : p = (k, v) := by
        rcases p with ⟨p1, p2⟩
        simp_all
      rw [← hkv]
      exact List.mem_cons_self _ _
    · rw [if_neg hp] at h
      exact List.mem_cons_of_mem _ (ih h)

theorem dictFind_dictInsert_self (d : Dict β) (k : String) (v : β) :
    dictFind (dictInsert d k v) k = some v := by
  induction d with
  | nil => simp [dictInsert, dictContains, dictFind]
  | cons p d ih =>
    by_cases hp : p.1 = k
    · simp [dictInsert, dictContains, hp, dictFind]
    · by_cases hc : dictContains d k
      · have : dictInsert (p :: d) k v = (if p.1 = k then (k, v) else p) :: d.map
            (fun q => if q.1 = k then (k, v) else q) := by
          simp [dictInsert, dictContains, hp, hc]
        rw [this, if_neg hp, dictFind, if_neg hp]
        have : d.map (fun q => if q.1 = k then (k, v) else q) = dictInsert d k v := by
          simp [dictInsert, hc]
        rw [this]
        exact ih
      · have : dictInsert (p :: d) k v = p :: (d ++ [(k, v)]) := by
          simp [dictInsert, dictContains, hp, hc]
        rw [this, dictFind, if_neg hp]
        have : d ++ [(k, v)] = dictInsert d k v := by
          simp [dictInsert, hc]
        rw [this]
        exact ih

theorem dictFind_dictErase_self (d : Dict β) (k : String) :
    dictFind (dictErase d k) k = none := by
  induction d with
  | nil => simp [dictErase, dictFind]
  | cons p d ih =>
    by_cases hp : p.1 = k
    · simpa [dictErase, hp] using ih
    · simpa [dictErase, hp, dictFind] using ih

theorem dictFind_dictErase_ne (d : Dict β) (k k' : String) (h : k' ≠ k) :
    dictFind (dictErase d k) k' = dictFind d k' := by
  induction d with
  | nil => rfl
  | cons p d ih =>
    by_cases hp : p.1 = k
    · have h1 : dictErase (p :: d) k = dictErase d k := by
        simp [dictErase, List.filter_cons, hp]
      have hp' : ¬ p.1 = k' := by
        rw [hp]
        exact fun hk => h hk.symm
      rw [h1, ih, dictFind, if_neg hp']
    · have h1 : dictErase (p :: d) k = p :: dictErase d k := by
        simp [dictErase, List.filter_cons, hp]
      rw [h1, dictFind, dictFind]
      by_cases hk' : p.1 = k'
      · rw [if_pos hk', if_pos hk']
      · rw [if_neg hk', if_neg hk', ih]

theorem delKeys_eq_filter (d : Dict β) (ks : List String) :
    delKeys d ks = d.filter (fun p => !(ks.contains p.1)) := by
  induction ks generalizing d with
  | nil => simp [delKeys]
  | cons a ks ih =>
    show delKeys (dictErase d a) ks = _
    rw [ih, dictErase, List.filter_filter]
    congr 1
    funext p
    by_cases hp : p.1 = a <;>
      simp [hp, List.contains_cons, Bool.and_comm]

theorem mem_delKeys (d : Dict β) (ks : List String) (e : String × β) :
    e ∈ delKeys d ks ↔ e ∈ d ∧ e.1 ∉ ks := by
  rw [delKeys_eq_filter, List.mem_filter]
  simp

theorem dictFind_delKeys_not_mem (d : Dict β) (ks : List String) (k : String)
    (h : k ∉ ks) : dictFind (delKeys d ks) k = dictFind d k := by
  induction ks generalizing d with
  | nil => rfl
  | cons a ks ih =>
    show dictFind (delKeys (dictErase d a) ks) k = _
    rw [ih (dictErase d a) (fun hk => h (List.mem_cons_of_mem _ hk))]
    apply dictFind_dictErase_ne
    intro hk
    apply h
    rw [hk]
    exact List.mem_cons_self a ks

theorem dictKeys_dictInsert_of_contains (d : Dict β) (k : String) (v : β)
    (hc : dictContains d k = true) :
    dictKeys (dictInsert d k v) = dictKeys d := by
  simp only [dictInsert, hc, if_true, dictKeys, List.map_map]
  apply List.map_congr_left
  intro p _
  simp only [Function.comp_apply]
  by_cases hp : p.1 = k
  · rw [if_pos hp]
    exact hp.symm
  · rw [if_neg hp]

theorem dictNodup_dictInsert (d : Dict β) (k : String) (v : β)
    (h : DictNodup d) : DictNodup (dictInsert d k v) := by
  by_cases hc : dictContains d k
  · unfold DictNodup
    rw [dictKeys_dictInsert_of_contains d k v hc]
    exact h
  · unfold DictNodup
    have : dictInsert d k v = d ++ [(k, v)] := by simp [dictInsert, hc]
    rw [this]
    unfold dictKeys
    rw [List.map_append]
    have hk : k ∉ dictKeys d := fun hm => hc ((dictContains_iff d k).mpr hm)
    simp only [List.map_cons, List.map_nil]
    rw [List.nodup_append]
    refine ⟨h, List.nodup_singleton k, ?_⟩
    intro a ha hb
    simp only [List.mem_singleton] at hb
    rw [hb] at ha
    exact hk ha

theorem dictNodup_filter (d : Dict β) (p : String × β → Bool)
    (h : DictNodup d) : DictNodup (d.filter p) := by
  have hs : (d.filter p).Sublist d := List.filter_sublist d
  exact ((hs.map Prod.fst).nodup) h

theorem dictNodup_delKeys (d : Dict β) (ks : List String)
    (h : DictNodup d) : DictNodup (delKeys d ks) := by
  rw [delKeys_eq_filter]
  exact dictNodup_filter d _ h

theorem dictInsert_length_le (d : Dict β) (k : String) (v : β) :
    (dictInsert d k v).length ≤ d.length + 1 := by
  by_cases hc : dictContains d k <;> simp [dictInsert, hc]

theorem binding_unique (d : Dict β) (k : String) (a b : β)
    (h : DictNodup d) (ha : (k, a) ∈ d) (hb : (k, b) ∈ d) : a = b := by
  induction d with
  | nil => simp at ha
  | cons p d ih =>
    unfold DictNodup dictKeys at h
    rw [List.map_cons, List.nodup_cons] at h
    rcases List.mem_cons.mp ha with ha1 | ha1 <;>
      rcases List.mem_cons.mp hb with hb1 | hb1
    · rw [← ha1] at hb1
      injection hb1 with h1 h2
      exact h2.symm
    · exfalso
      apply h.1
      rw [← ha1]
      simpa using List.mem_map_of_mem Prod.fst hb1
    · exfalso
      apply h.1
      rw [← hb1]
      simpa using List.mem_map_of_mem Prod.fst ha1
    · exact ih h.2 ha1 hb1

/-! ## Concrete fixtures used by counterexamples and witnesses -/

/-- The default retryable-error tokens. -/
def defaultRetryableErrors : List String :=
  ["CONNECTION_ERROR", "TIMEOUT", "NETWORK_ERROR", "TEMPORARY_FAILURE"]

/-- A two-attempt policy without jitter. -/
def polTwo : RetryPolicy :=
  { max_attempts := 2, base_delay_ms := 100, max_delay_ms := 30000
    backoff_multiplier := 2, jitter := false
    retryable_errors := defaultRetryableErrors }

/-- A three-attempt policy without jitter. -/
def polThree : RetryPolicy :=
  { max_attempts := 3, base_delay_ms := 100, max_delay_ms := 30000
    backoff_multiplier := 2, jitter := false
    retryable_errors := defaultRetryableErrors }

/-- A session config built on `polTwo`. -/
def cfgTwo : MCPTxConfig :=
  { retry_policy := polTwo, default_timeout_ms := 30000
    max_concurrent_requests := 10, deduplication_window_ms := 300000 }

/-- A foreign exception whose message carries a retryable token. -/
def connError : PyError :=
  { message := "boom CONNECTION_ERROR", error_code := none, retryable := none }

/-- A non-retryable taxonomy error (`MCPTxSequenceError`). -/
def seqError : PyError :=
  { message := "sequence violation", error_code := some "MCP_TX_SEQUENCE_ERROR"
    retryable := some false }

/-! ## Claim theorems -/

/-- Claim C9: every call that registers a lifecycle tracker under its fresh
`request_id` has that `request_id` removed from the active-request map before
the call returns, on every exit path — successful return, exhausted-retries
failure return, and an exception (caller cancellation) propagating out of
the attempt loop; the `outcomes` oracle ranges over all three exit paths. -/
theorem tracker_removed_on_every_exit (st : SessionState α) (now window : Int)
    (request_id : String) (transaction_id : Option String) (name : String)
    (arguments : Option (List (String × String))) (idempotency_key : Option String)
    (timeout_ms : Int) (retry_policy : RetryPolicy)
    (outcomes : Nat → AttemptOutcome α) :
    dictFind ((callToolWithRetry st now window request_id transaction_id name arguments
      idempotency_key timeout_ms retry_policy outcomes).2.1.active_requests)
      request_id = none := by
  unfold callToolWithRetry
  cases runLoop outcomes retry_policy <;>
    simp [dictFind_dictErase_self]

/-- Claim C2 (counterexample): with `max_attempts = 3` and a non-retryable
error on zero-indexed attempt 0 (so `0 < max_attempts - 1`), the loop breaks
after a single send, yet the returned failure result reports
`attempts = 3 = max_attempts`, not `0 + 1 = 1` as the claim states. -/
theorem early_break_attempts_counterexample :
    (callToolWithRetry (α := Nat) ⟨true, [], []⟩ 5 300000 "rid" none "tool" none
      (some "K") 30000 polThree (fun _ => .failure seqError)).2.2.length = 1 ∧
    (callToolWithRetry (α := Nat) ⟨true, [], []⟩ 5 300000 "rid" none "tool" none
      (some "K") 30000 polThree (fun _ => .failure seqError)).1 =
      .ok { result := none
            mcp_tx_meta :=
              { ack := false, processed := false, duplicate := false
                attempts := 3, final_status := "failed"
                error_code := some "MCP_TX_SEQUENCE_ERROR"
                error_message := some "sequence violation" } } ∧
    (3 : Nat) ≠ 0 + 1 := by
  refine ⟨rfl, ?_, by decide⟩
  rfl

/-- Claim C2 (amended): every failure result returned by the attempt loop —
including one produced by a non-retryable error consumed before the last
attempt — reports `meta.attempts = retry_policy.max_attempts`; only the
lifecycle tracker (discarded before return) recorded the breaking attempt's
index. -/
theorem failure_attempts_eq_max (st : SessionState α) (now window : Int)
    (request_id : String) (transaction_id : Option String) (name : String)
    (arguments : Option (List (String × String))) (idempotency_key : Option String)
    (timeout_ms : Int) (retry_policy : RetryPolicy)
    (outcomes : Nat → AttemptOutcome α) (r : MCPTxResult α)
    (h : (callToolWithRetry st now window request_id transaction_id name arguments
      idempotency_key timeout_ms retry_policy outcomes).1 = .ok r)
    (hack : r.mcp_tx_meta.ack = false) :
    r.mcp_tx_meta.attempts = retry_policy.max_attempts := by
  unfold callToolWithRetry at h
  cases hl : runLoop outcomes retry_policy with
  | success a v =>
    rw [hl] at h
    simp only [CallResult.ok.injEq] at h
    rw [← h] at hack
    simp at hack
  | cancelled ex =>
    rw [hl] at h
    simp at h
  | exhausted ex lastErr =>
    rw [hl] at h
    simp only [CallResult.ok.injEq] at h
    rw [← h]

/-- The failure result produced by exhausting `polTwo` against `connError`. -/
def failResTwo : MCPTxResult Nat :=
  { result := none
    mcp_tx_meta :=
      { ack := false, processed := false, duplicate := false
        attempts := 2, final_status := "failed"
        error_code := some "UNKNOWN_ERROR"
        error_message := some "boom CONNECTION_ERROR" } }

/-- Witness for `failure_attempts_eq_max` at a concrete failing run. -/
theorem failure_attempts_eq_max_witness :
    (callToolWithRetry (α := Nat) ⟨true, [], []⟩ 5 300000 "rid" none "tool" none
      (some "K") 30000 polTwo (fun _ => .failure connError)).1 = .ok failResTwo ∧
    failResTwo.mcp_tx_meta.ack = false ∧
    failResTwo.mcp_tx_meta.attempts = polTwo.max_attempts := by
  refine ⟨rfl, rfl, ?_⟩
  exact failure_attempts_eq_max ⟨true, [], []⟩ 5 300000 "rid" none "tool" none
    (some "K") 30000 polTwo (fun _ => .failure connError) failResTwo rfl rfl

/-- Claim C1 (counterexample): a `call_tool` invocation with
`idempotency_key = "K"` whose attempt loop exhausts and returns a failure
result (`ack = false`, `final_status = "failed"`) leaves the deduplication
cache without any entry for `"K"` — the failure result is *not* stored,
unlike success results. -/
theorem failure_not_cached_counterexample :
    (callTool (α := Nat) ⟨true, [], []⟩ cfgTwo 5 "rid" (fun _ => .failure connError)
      "tool" .none (some "K") none none).1 = .ok failResTwo ∧
    failResTwo.mcp_tx_meta.ack = false ∧
    failResTwo.mcp_tx_meta.final_status = "failed" ∧
    (callTool (α := Nat) ⟨true, [], []⟩ cfgTwo 5 "rid" (fun _ => .failure connError)
      "tool" .none (some "K") none none).2.1.deduplication_cache = [] := by
  exact ⟨rfl, rfl, rfl, rfl⟩

/-- Claim C1 (amended): the attempt loop persists *only* success results to
the deduplication cache: a failure return leaves the cache exactly as it was
when the loop started, while a success return with a truthy idempotency key
stores the success result under that key. -/
theorem failure_not_cached (st : SessionState α) (now window : Int)
    (request_id : String) (transaction_id : Option String) (name : String)
    (arguments : Option (List (String × String))) (idempotency_key : Option String)
    (timeout_ms : Int) (retry_policy : RetryPolicy)
    (outcomes : Nat → AttemptOutcome α) (r : MCPTxResult α)
    (h : (callToolWithRetry st now window request_id transaction_id name arguments
      idempotency_key timeout_ms retry_policy outcomes).1 = .ok r) :
    (r.mcp_tx_meta.ack = false →
      (callToolWithRetry st now window request_id transaction_id name arguments
        idempotency_key timeout_ms retry_policy outcomes).2.1.deduplication_cache
        = st.deduplication_cache) ∧
    (r.mcp_tx_meta.ack = true → optStrTruthy idempotency_key = true →
      (callToolWithRetry st now window request_id transaction_id name arguments
        idempotency_key timeout_ms retry_policy outcomes).2.1.deduplication_cache
        = cacheResult st.deduplication_cache (idempotency_key.getD "") r now window) := by
  cases hl : runLoop outcomes retry_policy with
  | success a v =>
    unfold callToolWithRetry at h ⊢
    rw [hl] at h ⊢
    dsimp only at h ⊢
    simp only [CallResult.ok.injEq] at h
    constructor
    · intro hack
      rw [← h] at hack
      simp at hack
    · intro _ htruthy
      simp only [htruthy, if_true, h]
  | cancelled ex =>
    unfold callToolWithRetry at h
    rw [hl] at h
    simp at h
  | exhausted ex lastErr =>
    unfold callToolWithRetry at h ⊢
    rw [hl] at h ⊢
    dsimp only at h ⊢
    simp only [CallResult.ok.injEq] at h
    refine ⟨fun _ => rfl, fun hack _ => ?_⟩
    rw [← h] at hack
    simp at hack

/-- Witness for `failure_not_cached` at a concrete failing run. -/
theorem failure_not_cached_witness :
    (callToolWithRetry (α := Nat) ⟨true, [], [("old", (failResTwo, 1))]⟩ 5 300000 "rid"
      none "tool" none (some "K") 30000 polTwo (fun _ => .failure connError)).1
      = .ok failResTwo ∧
    failResTwo.mcp_tx_meta.ack = false ∧
    (callToolWithRetry (α := Nat) ⟨true, [], [("old", (failResTwo, 1))]⟩ 5 300000 "rid"
      none "tool" none (some "K") 30000 polTwo (fun _ => .failure connError)).2.1.deduplication_cache
      = [("old", (failResTwo, 1))] := by
  refine ⟨rfl, rfl, ?_⟩
  exact (failure_not_cached ⟨true, [], [("old", (failResTwo, 1))]⟩ 5 300000 "rid" none
    "tool" none (some "K") 30000 polTwo (fun _ => .failure connError) failResTwo rfl).1 rfl

/-- Claim C3: a dedup-cache lookup for a key bound to `(res, t)` returns the
cached result when `now − t ≤ window` — with `duplicate := true` and the
original `ack`, `processed`, `attempts`, `final_status`, `error_code` and
`error_message` preserved unchanged, and the cache untouched — and when the
entry is expired it deletes the entry and returns none.  (The source tests
`t ≥ now − window`, which is the same inequality.) -/
theorem lookup_preserves_and_expires (cache : Dict (MCPTxResult α × Int))
    (key : String) (now window : Int) (res : MCPTxResult α) (t : Int)
    (h : dictFind cache key = some (res, t)) :
    (now - t ≤ window →
      getCachedResult cache key now window =
        (some { result := res.result
                mcp_tx_meta :=
                  { ack := res.mcp_tx_meta.ack
                    processed := res.mcp_tx_meta.processed
                    duplicate := true
                    attempts := res.mcp_tx_meta.attempts
                    final_status := res.mcp_tx_meta.final_status
                    error_code := res.mcp_tx_meta.error_code
                    error_message := res.mcp_tx_meta.error_message } },
         cache)) ∧
    (window < now - t →
      getCachedResult cache key now window = (none, dictErase cache key)) := by
  unfold getCachedResult
  rw [h]
  dsimp only
  constructor
  · intro hin
    rw [if_pos (by omega)]
  · intro hout
    rw [if_neg (by omega)]

/-- Witness for `lookup_preserves_and_expires`: a concrete in-window hit and
a concrete expired entry. -/
theorem lookup_preserves_and_expires_witness :
    dictFind [("K", (failResTwo, 40))] "K" = some (failResTwo, 40) ∧
    (1000 : Int) - 40 ≤ 300000 ∧
    getCachedResult [("K", (failResTwo, 40))] "K" 1000 300000 =
      (some { result := failResTwo.result
              mcp_tx_meta :=
                { ack := failResTwo.mcp_tx_meta.ack
                  processed := failResTwo.mcp_tx_meta.processed
                  duplicate := true
                  attempts := failResTwo.mcp_tx_meta.attempts
                  final_status := failResTwo.mcp_tx_meta.final_status
                  error_code := failResTwo.mcp_tx_meta.error_code
                  error_message := failResTwo.mcp_tx_meta.error_message } },
       [("K", (failResTwo, 40))]) ∧
    (300000 : Int) < 999999 - 40 ∧
    getCachedResult [("K", (failResTwo, 40))] "K" 999999 300000 =
      (none, dictErase [("K", (failResTwo, 40))] "K") := by
  refine ⟨rfl, by omega, ?_, by omega, ?_⟩
  · exact (lookup_preserves_and_expires [("K", (failResTwo, 40))] "K" 1000 300000
      failResTwo 40 rfl).1 (by omega)
  · exact (lookup_preserves_and_expires [("K", (failResTwo, 40))] "K" 999999 300000
      failResTwo 40 rfl).2 (by omega)

/-- Claim C6: the sanitizer is the pure function that redacts every
case-insensitive match of the password/token/key/secret/auth assignment
patterns, `/Users/<name>` and `/home/<name>` path prefixes, and `file://`
URLs to the literal `[REDACTED]`, then truncates to 200 characters with an
appended `...`; its output never exceeds 200 characters.  The concrete
conjuncts pin the behavior of both phases on representative inputs. -/
theorem sanitizer_bounded_and_redacts (e : String) :
    (sanitizeErrorMessage e).length ≤ 200 ∧
    sanitizeErrorMessage e = ⟨truncate200 (redactAll e.toList)⟩ ∧
    sanitizeErrorMessage "password=hunter2" = "[REDACTED]" ∧
    sanitizeErrorMessage "failed at /Users/alice/proj/file.txt with token: abc123"
      = "failed at [REDACTED]/proj/file.txt with [REDACTED]" ∧
    sanitizeErrorMessage "see file:///etc/passwd now" = "see [REDACTED] now" ∧
    (sanitizeErrorMessage ⟨List.replicate 300 'a'⟩).length = 200 := by
  refine ⟨?_, rfl, rfl, rfl, rfl, rfl⟩
  show (truncate200 (redactAll e.toList)).length ≤ 200
  unfold truncate200
  by_cases hlen : 200 < (redactAll e.toList).length
  · rw [if_pos hlen]
    simp only [List.length_append, List.length_take]
    have : "...".toList.length = 3 := rfl
    omega
  · rw [if_neg hlen]
    omega

/-- A policy with a fractional backoff product and jitter off. -/
def polFrac : RetryPolicy :=
  { max_attempts := 3, base_delay_ms := 101, max_delay_ms := 100000
    backoff_multiplier := (5 : ℚ) / 2, jitter := false
    retryable_errors := defaultRetryableErrors }

/-- Claim C7 (counterexample): with `base_delay_ms = 101`,
`backoff_multiplier = 2.5`, jitter off and attempt index 1, the code returns
`int(max(min(101·2.5, 100000), 101)) = 252`, whereas the claim's formula
`max(min(base·multiplier^a, max_delay), base) = 252.5` — the claimed
equality omits the `int(...)` truncation the source applies. -/
theorem delay_truncation_counterexample :
    calculateRetryDelay 1 polFrac 0 = 252 ∧
    ((calculateRetryDelay 1 polFrac 0 : ℚ) ≠
      max (min ((polFrac.base_delay_ms : ℚ) * polFrac.backoff_multiplier ^ 1)
        (polFrac.max_delay_ms : ℚ)) (polFrac.base_delay_ms : ℚ)) := by
  have h1 : calculateRetryDelay 1 polFrac 0 = 252 := by
    unfold calculateRetryDelay pytrunc polFrac
    norm_num [min_def, max_def, Int.floor_eq_iff]
  refine ⟨h1, ?_⟩
  rw [h1]
  unfold polFrac
  norm_num [min_def, max_def]

/-- Claim C7 (amended): the delay is `int(max(delay, base_delay_ms))` where
`delay` is `min(base·multiplier^a, max_delay)` (jitter off) or the `int`
truncation of that raw value plus a noise term bounded by ±0.2·raw (jitter
on, noise `raw·0.2·(2·rand−1)` for the uniform draw `rand`); the result is
never below `base_delay_ms` and hence never negative.  The claim's formulas
hold up to the `int(...)` truncations the source applies. -/
theorem delay_clamped_spec (p : RetryPolicy) (a : Nat) (rand : ℚ)
    (hb : 100 ≤ p.base_delay_ms) (hm : 1 ≤ p.backoff_multiplier)
    (hd : 1000 ≤ p.max_delay_ms) (hr0 : 0 ≤ rand) (hr1 : rand < 1) :
    p.base_delay_ms ≤ calculateRetryDelay a p rand ∧
    0 ≤ calculateRetryDelay a p rand ∧
    (p.jitter = false →
      calculateRetryDelay a p rand =
        pytrunc (max (min ((p.base_delay_ms : ℚ) * p.backoff_multiplier ^ a)
          (p.max_delay_ms : ℚ)) (p.base_delay_ms : ℚ))) ∧
    (p.jitter = true →
      ∃ noise : ℚ,
        |noise| ≤ (1/5) * min ((p.base_delay_ms : ℚ) * p.backoff_multiplier ^ a)
          (p.max_delay_ms : ℚ) ∧
        calculateRetryDelay a p rand =
          pytrunc (max ((pytrunc (min ((p.base_delay_ms : ℚ) * p.backoff_multiplier ^ a)
            (p.max_delay_ms : ℚ) + noise) : ℚ)) (p.base_delay_ms : ℚ))) := by
  have hb0 : (0 : ℚ) ≤ (p.base_delay_ms : ℚ) := by
    have h : (0 : Int) ≤ p.base_delay_ms := by omega
    exact_mod_cast h
  have hpow : ∀ k : Nat, (1 : ℚ) ≤ p.backoff_multiplier ^ k := by
    intro k
    induction k with
    | zero => norm_num
    | succ n ih =>
      rw [pow_succ]
      nlinarith
  have key : ∀ D1 : ℚ, p.base_delay_ms ≤ pytrunc (max D1 (p.base_delay_ms : ℚ)) := by
    intro D1
    unfold pytrunc
    rw [if_pos (le_trans hb0 (le_max_right _ _))]
    exact Int.le_floor.mpr (le_max_right _ _)
  have h1 : p.base_delay_ms ≤ calculateRetryDelay a p rand := by
    unfold calculateRetryDelay
    dsimp only
    exact key _
  refine ⟨h1, by omega, ?_, ?_⟩
  · intro hj
    unfold calculateRetryDelay
    rw [hj]
    simp
  · intro hj
    refine ⟨min ((p.base_delay_ms : ℚ) * p.backoff_multiplier ^ a) (p.max_delay_ms : ℚ)
      * (1/5) * (rand * 2 - 1), ?_, ?_⟩
    · have hdQ : (0 : ℚ) ≤ (p.max_delay_ms : ℚ) := by
        have h : (0 : Int) ≤ p.max_delay_ms := by omega
        exact_mod_cast h
      have hmin : (0 : ℚ) ≤ min ((p.base_delay_ms : ℚ) * p.backoff_multiplier ^ a)
          (p.max_delay_ms : ℚ) := le_min (by nlinarith [hpow a]) hdQ
      have habs : |rand * 2 - 1| ≤ 1 := abs_le.mpr ⟨by linarith, by linarith⟩
      calc |min ((p.base_delay_ms : ℚ) * p.backoff_multiplier ^ a) (p.max_delay_ms : ℚ)
            * (1/5) * (rand * 2 - 1)|
          = min ((p.base_delay_ms : ℚ) * p.backoff_multiplier ^ a) (p.max_delay_ms : ℚ)
            * (1/5) * |rand * 2 - 1| := by
            rw [abs_mul, abs_of_nonneg (mul_nonneg hmin (by norm_num))]
        _ ≤ min ((p.base_delay_ms : ℚ) * p.backoff_multiplier ^ a) (p.max_delay_ms : ℚ)
            * (1/5) * 1 :=
            mul_le_mul_of_nonneg_left habs (mul_nonneg hmin (by norm_num))
        _ = (1/5) * min ((p.base_delay_ms : ℚ) * p.backoff_multiplier ^ a)
            (p.max_delay_ms : ℚ) := by ring
    · unfold calculateRetryDelay
      rw [hj]
      simp

/-- A jittered policy for the delay witness. -/
def polJit : RetryPolicy :=
  { max_attempts := 3, base_delay_ms := 100, max_delay_ms := 30000
    backoff_multiplier := 2, jitter := true
    retryable_errors := defaultRetryableErrors }

/-- Witness for `delay_clamped_spec` at a concrete jittered policy. -/
theorem delay_clamped_spec_witness :
    (100 : Int) ≤ polJit.base_delay_ms ∧ (1 : ℚ) ≤ polJit.backoff_multiplier ∧
    (1000 : Int) ≤ polJit.max_delay_ms ∧ (0 : ℚ) ≤ 1/2 ∧ (1/2 : ℚ) < 1 ∧
    polJit.base_delay_ms ≤ calculateRetryDelay 2 polJit (1/2) := by
  refine ⟨?_, ?_, ?_, by norm_num, by norm_num, ?_⟩
  · norm_num [polJit]
  · norm_num [polJit]
  · norm_num [polJit]
  · exact (delay_clamped_spec polJit 2 (1/2) (by norm_num [polJit]) (by norm_num [polJit])
      (by norm_num [polJit]) (by norm_num) (by norm_num)).1

/-- Claim C8 (counterexample): `initialize` never clears the extension flag.
On a session whose flag is already `true`, a handshake against a peer that
returns no capabilities leaves the flag `true`, so "after initialize the
flag is true iff the peer advertised `mcp_tx`" fails as stated for that
call. -/
theorem init_flag_not_cleared_counterexample :
    (sessionInit true { capabilities := none } { capabilities := none }).2 = true ∧
    peerAdvertisesMcpTx { capabilities := none } = false := by
  exact ⟨rfl, rfl⟩

/-- Claim C8 (amended): the outbound payload always carries
`capabilities.experimental.mcp_tx = {version := "0.1.0",
features := [ack, retry, idempotency, transactions]}`, and the flag after
`initialize` equals the previous flag value OR-ed with the peer-advertises
condition (non-empty `experimental` mapping containing `"mcp_tx"`; a missing
`experimental` and an empty one are both treated as no support).  On a
freshly constructed session the previous flag is `false`, giving the claimed
iff; `initialize` never clears an already-set flag. -/
theorem init_payload_and_flag (enabled : Bool) (kwargs : InitKwargs)
    (result : InitResult) :
    (∃ exp, ((sessionInit enabled kwargs result).1.capabilities.bind
        Capabilities.experimental) = some exp ∧
      dictFind exp "mcp_tx" = some (.advert "0.1.0"
        ["ack", "retry", "idempotency", "transactions"])) ∧
    (sessionInit enabled kwargs result).2 = (enabled || peerAdvertisesMcpTx result) ∧
    (sessionInit false kwargs result).2 = peerAdvertisesMcpTx result := by
  refine ⟨?_, ?_, ?_⟩
  · refine ⟨dictInsert ((kwargs.capabilities.getD { experimental := none }).experimental.getD [])
      "mcp_tx" (.advert "0.1.0" ["ack", "retry", "idempotency", "transactions"]), ?_, ?_⟩
    · rfl
    · exact dictFind_dictInsert_self _ _ _
  · show initFlagUpdate enabled result = _
    unfold initFlagUpdate peerAdvertisesMcpTx
    rcases result with ⟨caps⟩
    cases caps with
    | none => simp
    | some c =>
      cases hc : c.experimental with
      | none => simp [hc]
      | some exp =>
        by_cases he : exp.isEmpty
        · simp [hc, he]
        · by_cases hm : dictContains exp "mcp_tx" <;> simp [hc, he, hm]
  · show initFlagUpdate false result = _
    unfold initFlagUpdate peerAdvertisesMcpTx
    rcases result with ⟨caps⟩
    cases caps with
    | none => simp
    | some c =>
      cases hc : c.experimental with
      | none => simp [hc]
      | some exp =>
        by_cases he : exp.isEmpty
        · simp [hc, he]
        · by_cases hm : dictContains exp "mcp_tx" <;> simp [hc, he, hm]

/-- Claim C5: every `call_tool` invocation with an empty (or all-whitespace)
name, a name containing a character other than alphanumerics / `-` / `_`, a
non-mapping `arguments` value, an idempotency key that is empty after
whitespace trim, or a `timeout_ms` outside `[1, 600000]`, raises a
`ValueError` before any request is sent to the underlying session (empty
send list) and before any session state is touched (the state — dedup cache,
active-request map — is returned unchanged, and the gated region guarding
the semaphore is never entered). -/
theorem validation_precedes_effects (st : SessionState α) (cfg : MCPTxConfig)
    (now : Int) (request_id : String) (outcomes : Nat → AttemptOutcome α)
    (name : String) (arguments : PyArgs) (idempotency_key : Option String)
    (timeout_ms : Option Int) (retry_policy : Option RetryPolicy)
    (h : pyStrip name = ""
       ∨ (∃ c ∈ name.toList, pyIsAlnumChar c = false ∧ c ≠ '_' ∧ c ≠ '-')
       ∨ arguments.isNonMapping = true
       ∨ (∃ k, idempotency_key = some k ∧ pyStrip k = "")
       ∨ (∃ t, timeout_ms = some t ∧ (t < 1 ∨ 600000 < t))) :
    ∃ msg, callTool st cfg now request_id outcomes name arguments idempotency_key
      timeout_ms retry_policy = (.invalid msg, st, []) := by
  unfold callTool
  by_cases g1 : name = "" ∨ pyStrip name = ""
  · rw [if_pos g1]
    exact ⟨_, rfl⟩
  · rw [if_neg g1]
    by_cases g2 : (!pyStrIsAlnum (pyReplaceChar (pyReplaceChar name '_' 'a') '-' 'a')) = true
    · rw [if_pos g2]
      exact ⟨_, rfl⟩
    · rw [if_neg g2]
      by_cases g3 : arguments.isNonMapping = true
      · rw [if_pos g3]
        exact ⟨_, rfl⟩
      · rw [if_neg g3]
        by_cases g4 : invalidKeyArg idempotency_key = true
        · rw [if_pos g4]
          exact ⟨_, rfl⟩
        · rw [if_neg g4]
          by_cases g5 : invalidTimeoutArg timeout_ms = true
          · rw [if_pos g5]
            exact ⟨_, rfl⟩
          · exfalso
            rcases h with h | h | h | h | h
            · exact g1 (Or.inr h)
            · obtain ⟨c, hmem, hcal, hc1, hc2⟩ := h
              have hal : pyStrIsAlnum (pyReplaceChar (pyReplaceChar name '_' 'a') '-' 'a') = true := by
                cases hbool : pyStrIsAlnum (pyReplaceChar (pyReplaceChar name '_' 'a') '-' 'a') with
                | false => simp [hbool] at g2
                | true => rfl
              have hmem2 : c ∈ (pyReplaceChar (pyReplaceChar name '_' 'a') '-' 'a').toList := by
                show c ∈ (name.toList.map (fun x => if x = '_' then 'a' else x)).map
                  (fun x => if x = '-' then 'a' else x)
                have h1 : (if c = '_' then 'a' else c) ∈
                    name.toList.map (fun x => if x = '_' then 'a' else x) :=
                  List.mem_map_of_mem _ hmem
                rw [if_neg hc1] at h1
                have h2 : (if c = '-' then 'a' else c) ∈
                    (name.toList.map (fun x => if x = '_' then 'a' else x)).map
                      (fun x => if x = '-' then 'a' else x) :=
                  List.mem_map_of_mem _ h1
                rw [if_neg hc2] at h2
                exact h2
              unfold pyStrIsAlnum at hal
              rw [Bool.and_eq_true, List.all_eq_true] at hal
              have := hal.2 c hmem2
              rw [hcal] at this
              exact absurd this (by decide)
            · exact g3 h
            · obtain ⟨k, hk, hks⟩ := h
              apply g4
              rw [hk]
              simp [invalidKeyArg, hks]
            · obtain ⟨t, ht, hts⟩ := h
              apply g5
              rw [ht]
              simp only [invalidTimeoutArg, Bool.or_eq_true, decide_eq_true_eq]
              omega

/-- Witness for `validation_precedes_effects`: `name = "bad@name"` raises
before any send. -/
theorem validation_precedes_effects_witness :
    ('@' ∈ "bad@name".toList ∧ pyIsAlnumChar '@' = false ∧ '@' ≠ '_' ∧ '@' ≠ '-') ∧
    (∃ msg, callTool (α := Nat) ⟨true, [], []⟩ cfgTwo 7 "rid" (fun _ => .success 1)
      "bad@name" .none none none none = (.invalid msg, ⟨true, [], []⟩, [])) := by
  refine ⟨⟨by decide, by decide, by decide, by decide⟩, ?_⟩
  exact validation_precedes_effects ⟨true, [], []⟩ cfgTwo 7 "rid" (fun _ => .success 1)
    "bad@name" .none none none none
    (Or.inr (Or.inl ⟨'@', by decide, by decide, by decide, by decide⟩))

/-- The attempt loop itself never raises a validation error: its result is a
returned `MCPTxResult` or a propagating cancellation. -/
theorem callToolWithRetry_not_invalid (st : SessionState α) (now window : Int)
    (request_id : String) (transaction_id : Option String) (name : String)
    (arguments : Option (List (String × String))) (idempotency_key : Option String)
    (timeout_ms : Int) (retry_policy : RetryPolicy)
    (outcomes : Nat → AttemptOutcome α) (msg : String) :
    (callToolWithRetry st now window request_id transaction_id name arguments
      idempotency_key timeout_ms retry_policy outcomes).1 ≠ .invalid msg := by
  unfold callToolWithRetry
  cases runLoop outcomes retry_policy <;> simp

/-- Claim C10: with the other parameters valid, `call_tool` accepts a name
iff it is non-empty after whitespace trim and the string obtained by
replacing every `_` and `-` with the letter `a` satisfies Python's
`isalnum`; consequently names with no alphanumeric character at all (`"_"`,
`"--"`) and names made of non-ASCII alphanumerics (`"é漢"`) are accepted and
sent to the underlying session. -/
theorem name_validation_iff :
    (∀ (α : Type) (st : SessionState α) (cfg : MCPTxConfig) (now : Int)
       (request_id : String) (outcomes : Nat → AttemptOutcome α) (name : String),
      (∀ msg, (callTool st cfg now request_id outcomes name .none none none none).1
        ≠ .invalid msg)
      ↔ (pyStrip name ≠ "" ∧
         pyStrIsAlnum (pyReplaceChar (pyReplaceChar name '_' 'a') '-' 'a') = true)) ∧
    (callTool (α := Nat) ⟨false, [], []⟩ cfgTwo 0 "r1" (fun _ => .success 1) "_"
      .none none none none).2.2 = [⟨"tools/call", "_", [], none⟩] ∧
    (callTool (α := Nat) ⟨false, [], []⟩ cfgTwo 0 "r2" (fun _ => .success 1) "--"
      .none none none none).2.2 = [⟨"tools/call", "--", [], none⟩] ∧
    (callTool (α := Nat) ⟨false, [], []⟩ cfgTwo 0 "r3" (fun _ => .success 1) "é漢"
      .none none none none).2.2 = [⟨"tools/call", "é漢", [], none⟩] := by
  refine ⟨?_, rfl, rfl, rfl⟩
  intro α st cfg now request_id outcomes name
  unfold callTool
  by_cases g1 : name = "" ∨ pyStrip name = ""
  · rw [if_pos g1]
    apply iff_of_false
    · intro hall
      exact hall _ rfl
    · rintro ⟨hne, _⟩
      rcases g1 with h | h
      · apply hne
        rw [h]
        rfl
      · exact hne h
  · rw [if_neg g1]
    by_cases g2 : (!pyStrIsAlnum (pyReplaceChar (pyReplaceChar name '_' 'a') '-' 'a')) = true
    · rw [if_pos g2]
      apply iff_of_false
      · intro hall
        exact hall _ rfl
      · rintro ⟨_, hal⟩
        simp [hal] at g2
    · rw [if_neg g2]
      apply iff_of_true
      · intro msg
        exact callToolWithRetry_not_invalid st now cfg.deduplication_window_ms request_id
          none name PyArgs.none.toOptionDict none (cfg.default_timeout_ms) cfg.retry_policy
          outcomes msg
      · refine ⟨fun hs => g1 (Or.inr hs), ?_⟩
        cases hbool : pyStrIsAlnum (pyReplaceChar (pyReplaceChar name '_' 'a') '-' 'a') with
        | false => simp [hbool] at g2
        | true => rfl

/-- `List.contains` on strings tests membership. -/
theorem containsStr_iff (ks : List String) (s : String) :
    ks.contains s = true ↔ s ∈ ks :=
  List.elem_iff

/-- The trim comparator is transitive. -/
theorem tsLe_trans (a b c : String × (MCPTxResult α × Int))
    (hab : tsLe a b) (hbc : tsLe b c) : tsLe a c := by
  unfold tsLe at hab hbc ⊢
  simp only [decide_eq_true_eq] at hab hbc ⊢
  omega

/-- The trim comparator is total. -/
theorem tsLe_total (a b : String × (MCPTxResult α × Int)) :
    tsLe a b || tsLe b a := by
  unfold tsLe
  simp only [Bool.or_eq_true, decide_eq_true_eq]
  omega

/-- Claim C4: a dedup-cache store (i) binds the key to `(result, now)` —
visible after the expiry sweep since the fresh timestamp is inside the
window; (ii) evicts every entry older than the window, so all surviving
timestamps satisfy `now − window ≤ t`; (iii) keeps the cache at ≤ 1000
entries whenever it started at ≤ 1000 (in particular a 1001st insertion
trims back under the cap, by 100 entries); and (iv) evicts oldest-first: any
entry the trim removes has a timestamp ≤ that of every retained entry. -/
theorem store_inserts_evicts_trims (cache : Dict (MCPTxResult α × Int))
    (key : String) (res : MCPTxResult α) (now window : Int)
    (hnd : DictNodup cache) (hw : 0 ≤ window) (hcard : cache.length ≤ 1000) :
    dictFind (cacheExpiryPhase (cacheInsertPhase cache key res now) now window) key
      = some (res, now) ∧
    (∀ e ∈ cacheResult cache key res now window, now - window ≤ e.2.2) ∧
    (cacheResult cache key res now window).length ≤ 1000 ∧
    (∀ e ∈ cacheExpiryPhase (cacheInsertPhase cache key res now) now window,
      e ∉ cacheResult cache key res now window →
      ∀ f ∈ cacheResult cache key res now window, e.2.2 ≤ f.2.2) := by
  have hndc1 : DictNodup (cacheInsertPhase cache key res now) :=
    dictNodup_dictInsert _ _ _ hnd
  have hfind1 : dictFind (cacheInsertPhase cache key res now) key = some (res, now) :=
    dictFind_dictInsert_self _ _ _
  have hkeynotexp : key ∉ ((cacheInsertPhase cache key res now).filter
      (fun p => p.2.2 < now - window)).map Prod.fst := by
    intro hk
    obtain ⟨p, hp, hpk⟩ := List.mem_map.mp hk
    rcases p with ⟨pk, pv⟩
    obtain ⟨hpc1, hpt⟩ := List.mem_filter.mp hp
    simp only at hpk
    subst hpk
    have hpv : pv = (res, now) :=
      binding_unique _ _ _ _ hndc1 hpc1 (dictFind_mem _ _ _ hfind1)
    rw [hpv] at hpt
    simp only [decide_eq_true_eq] at hpt
    omega
  have hconj1 : dictFind (cacheExpiryPhase (cacheInsertPhase cache key res now) now window)
      key = some (res, now) := by
    unfold cacheExpiryPhase
    rw [dictFind_delKeys_not_mem _ _ _ hkeynotexp]
    exact hfind1
  -- facts about the post-expiry stage
  have hc2mem : ∀ e ∈ cacheExpiryPhase (cacheInsertPhase cache key res now) now window,
      e ∈ cacheInsertPhase cache key res now ∧
      e.1 ∉ ((cacheInsertPhase cache key res now).filter
        (fun p => p.2.2 < now - window)).map Prod.fst :=
    fun e he => (mem_delKeys _ _ _).mp he
  have hc2window : ∀ e ∈ cacheExpiryPhase (cacheInsertPhase cache key res now) now window,
      now - window ≤ e.2.2 := by
    intro e he
    obtain ⟨hec1, henotk⟩ := hc2mem e he
    by_contra hlt
    push_neg at hlt
    exact henotk (List.mem_map_of_mem Prod.fst
      (List.mem_filter.mpr ⟨hec1, by simpa using hlt⟩))
  have hndc2 : DictNodup (cacheExpiryPhase (cacheInsertPhase cache key res now) now window) := by
    unfold cacheExpiryPhase
    exact dictNodup_delKeys _ _ hndc1
  have hlenc2 : (cacheExpiryPhase (cacheInsertPhase cache key res now) now window).length
      ≤ cache.length + 1 := by
    have h1 : (cacheExpiryPhase (cacheInsertPhase cache key res now) now window).length
        ≤ (cacheInsertPhase cache key res now).length := by
      unfold cacheExpiryPhase
      rw [delKeys_eq_filter]
      exact List.length_filter_le _ _
    have h2 : (cacheInsertPhase cache key res now).length ≤ cache.length + 1 :=
      dictInsert_length_le cache key (res, now)
    omega
  -- abbreviate the post-expiry stage
  set c2 := cacheExpiryPhase (cacheInsertPhase cache key res now) now window with hc2def
  by_cases htrim : 1000 < c2.length
  · -- overflow: the 100 oldest entries are deleted
    have hout : cacheResult cache key res now window =
        delKeys c2 (((c2.mergeSort tsLe).take 100).map Prod.fst) := by
      unfold cacheResult cacheTrimPhase
      rw [← hc2def, if_pos htrim]
    have hperm : (c2.mergeSort tsLe).Perm c2 := List.mergeSort_perm c2 tsLe
    have hsort : (c2.mergeSort tsLe).Pairwise (fun x y => tsLe x y) :=
      List.sorted_mergeSort tsLe_trans tsLe_total c2
    have hndsorted : ((c2.mergeSort tsLe).map Prod.fst).Nodup :=
      ((hperm.map Prod.fst).nodup_iff).mpr hndc2
    have hsplit : (c2.mergeSort tsLe).take 100 ++ (c2.mergeSort tsLe).drop 100
        = c2.mergeSort tsLe := List.take_append_drop 100 (c2.mergeSort tsLe)
    have hdisj : ∀ x ∈ (c2.mergeSort tsLe).take 100,
        ∀ y ∈ (c2.mergeSort tsLe).drop 100, x.1 = y.1 → False := by
      intro x hx y hy hxy
      have hnd2 := hndsorted
      rw [← hsplit, List.map_append, List.nodup_append] at hnd2
      exact hnd2.2.2 (List.mem_map_of_mem Prod.fst hx)
        (hxy ▸ List.mem_map_of_mem Prod.fst hy)
    have hdropnot : ∀ y ∈ (c2.mergeSort tsLe).drop 100,
        y.1 ∉ ((c2.mergeSort tsLe).take 100).map Prod.fst := by
      intro y hy hks
      obtain ⟨x, hx, hxy⟩ := List.mem_map.mp hks
      exact hdisj x hx y hy hxy
    have htakein : ∀ x ∈ (c2.mergeSort tsLe).take 100,
        x.1 ∈ ((c2.mergeSort tsLe).take 100).map Prod.fst :=
      fun x hx => List.mem_map_of_mem Prod.fst hx
    -- length of the trimmed cache
    have hlenout : (cacheResult cache key res now window).length = c2.length - 100 := by
      rw [hout, delKeys_eq_filter]
      have hfl : (c2.filter (fun p =>
          !(((c2.mergeSort tsLe).take 100).map Prod.fst).contains p.1)).length
          = ((c2.mergeSort tsLe).filter (fun p =>
              !(((c2.mergeSort tsLe).take 100).map Prod.fst).contains p.1)).length :=
        ((hperm.filter _).length_eq).symm
      have hfiltake : ((c2.mergeSort tsLe).take 100).filter (fun p =>
          !(((c2.mergeSort tsLe).take 100).map Prod.fst).contains p.1) = [] := by
        apply List.filter_eq_nil_iff.mpr
        intro x hx
        simp only [Bool.not_eq_true', Bool.not_eq_false]
        exact (containsStr_iff _ _).mpr (htakein x hx)
      have hfildrop : ((c2.mergeSort tsLe).drop 100).filter (fun p =>
          !(((c2.mergeSort tsLe).take 100).map Prod.fst).contains p.1)
          = (c2.mergeSort tsLe).drop 100 := by
        apply List.filter_eq_self.mpr
        intro y hy
        simp only [Bool.not_eq_true']
        rw [← Bool.not_eq_true]
        intro hcontra
        exact hdropnot y hy ((containsStr_iff _ _).mp hcontra)
      have hsplit2 : ∀ q : String × (MCPTxResult α × Int) → Bool,
          ((c2.mergeSort tsLe).filter q).length
          = (((c2.mergeSort tsLe).take 100).filter q).length
            + (((c2.mergeSort tsLe).drop 100).filter q).length := by
        intro q
        conv_lhs => rw [← hsplit]
        rw [List.filter_append, List.length_append]
      rw [hfl, hsplit2 (fun p =>
        !(((c2.mergeSort tsLe).take 100).map Prod.fst).contains p.1), hfiltake, hfildrop]
      have hlensorted : (c2.mergeSort tsLe).length = c2.length := hperm.length_eq
      simp only [List.length_nil, List.length_drop]
      rw [hlensorted]
      omega
    refine ⟨hconj1, ?_, ?_, ?_⟩
    · intro e he
      apply hc2window
      rw [hout] at he
      exact ((mem_delKeys _ _ _).mp he).1
    · omega
    · intro e he henot f hf
      rw [hout] at henot hf
      have heks : e.1 ∈ ((c2.mergeSort tsLe).take 100).map Prod.fst := by
        by_contra hcontra
        exact henot ((mem_delKeys _ _ _).mpr ⟨he, hcontra⟩)
      have hesorted : e ∈ c2.mergeSort tsLe := hperm.mem_iff.mpr he
      obtain ⟨hfc2, hfks⟩ := (mem_delKeys _ _ _).mp hf
      have hfsorted : f ∈ c2.mergeSort tsLe := hperm.mem_iff.mpr hfc2
      have hetake : e ∈ (c2.mergeSort tsLe).take 100 := by
        rcases List.mem_append.mp (by rw [hsplit]; exact hesorted) with h | h
        · exact h
        · exact absurd heks (hdropnot e h)
      have hfdrop : f ∈ (c2.mergeSort tsLe).drop 100 := by
        rcases List.mem_append.mp (by rw [hsplit]; exact hfsorted) with h | h
        · exact absurd (htakein f h) hfks
        · exact h
      have hpw := hsort
      rw [← hsplit] at hpw
      have hle := (List.pairwise_append.mp hpw).2.2 e hetake f hfdrop
      unfold tsLe at hle
      simpa using hle
  · -- no overflow: the trim phase is the identity
    have hout : cacheResult cache key res now window = c2 := by
      unfold cacheResult cacheTrimPhase
      rw [← hc2def, if_neg htrim]
    refine ⟨hconj1, ?_, ?_, ?_⟩
    · intro e he
      rw [hout] at he
      exact hc2window e he
    · rw [hout]
      omega
    · intro e he henot f hf
      rw [hout] at henot
      exact absurd he henot

/-- Witness for `store_inserts_evicts_trims` on a small concrete cache. -/
theorem store_inserts_evicts_trims_witness :
    DictNodup ([("a", (failResTwo, 3)), ("b", (failResTwo, 4))] :
      Dict (MCPTxResult Nat × Int)) ∧
    (0 : Int) ≤ 10 ∧
    ([("a", (failResTwo, 3)), ("b", (failResTwo, 4))] :
      Dict (MCPTxResult Nat × Int)).length ≤ 1000 ∧
    (dictFind (cacheExpiryPhase (cacheInsertPhase
        [("a", (failResTwo, 3)), ("b", (failResTwo, 4))] "c" failResTwo 5) 5 10) "c"
      = some (failResTwo, 5) ∧
    (∀ e ∈ cacheResult [("a", (failResTwo, 3)), ("b", (failResTwo, 4))] "c" failResTwo 5 10,
      (5 : Int) - 10 ≤ e.2.2) ∧
    (cacheResult [("a", (failResTwo, 3)), ("b", (failResTwo, 4))] "c" failResTwo 5 10).length
      ≤ 1000 ∧
    (∀ e ∈ cacheExpiryPhase (cacheInsertPhase
        [("a", (failResTwo, 3)), ("b", (failResTwo, 4))] "c" failResTwo 5) 5 10,
      e ∉ cacheResult [("a", (failResTwo, 3)), ("b", (failResTwo, 4))] "c" failResTwo 5 10 →
      ∀ f ∈ cacheResult [("a", (failResTwo, 3)), ("b", (failResTwo, 4))] "c" failResTwo 5 10,
        e.2.2 ≤ f.2.2)) := by
  refine ⟨by unfold DictNodup dictKeys; decide, by decide, by decide, ?_⟩
  exact store_inserts_evicts_trims [("a", (failResTwo, 3)), ("b", (failResTwo, 4))]
    "c" failResTwo 5 10 (by unfold DictNodup dictKeys; decide) (by decide) (by decide)

end MCPTx
